import Mathlib

/-!
Shallow embedding of the annotation tool in `a.py`: the label management,
bounding-box assembly, YOLO / Pascal-VOC text export, JSON serialization and
file-write sequencing of the Save handlers.  Coordinates are modelled as
rationals (the Python arithmetic is real-valued division over the numbers
decoded from the canvas JSON).
-/

/-- Export format, from the sidebar selectbox `options=["Pascal VOC", "YOLO"]`. -/
inductive AnnFormat where
  | pascalVOC : AnnFormat
  | yolo : AnnFormat
deriving DecidableEq, Repr

/-- The string stored in `annotation_data["annotation_format"]`, i.e. the
selectbox value itself. -/
def AnnFormat.name : AnnFormat → String
  | .pascalVOC => "Pascal VOC"
  | .yolo => "YOLO"

/-- One assigned annotation, the dict appended to `assigned_annotations`
(a.py lines 132-138): a label plus the four box numbers. -/
structure Ann where
  label : String
  x : ℚ
  y : ℚ
  width : ℚ
  height : ℚ
deriving DecidableEq, Repr

/-- The aggregate saved per image: the fields of `annotation_data`
(a.py lines 142-147).  The image dimensions are not part of it. -/
structure AnnRecord where
  image_name : String
  fmt : AnnFormat
  custom_labels : List String
  annotations : List Ann
deriving DecidableEq, Repr

/-- The image reference of the spec: identifying name plus pixel dimensions
(`width, height = image.size`, a.py line 85). -/
structure ImageRef where
  name : String
  width : ℤ
  height : ℤ
deriving DecidableEq, Repr

/-- a.py line 58:
`custom_labels = [label.strip() for label in labels_input.splitlines() if label.strip() != ""]`,
applied to the already-split lines. -/
def setLabels (ls : List String) : List String :=
  (ls.filter (fun l => l.trim != "")).map (fun l => l.trim)

/-- a.py line 126: `default_label = custom_labels[0] if custom_labels else "object"`. -/
def default_label (custom_labels : List String) : String :=
  custom_labels.headD "object"

/-- a.py line 129: the selectbox options,
`custom_labels if custom_labels else [default_label]`. -/
def labelOptions (custom_labels : List String) : List String :=
  if custom_labels.isEmpty then [default_label custom_labels] else custom_labels

/-- Index of the first occurrence of `lab`, `none` when absent: the behaviour
of Python `list.index` with `ValueError` mapped to `none`. -/
def classIndexAux : List String → String → Option ℕ
  | [], _ => none
  | l :: ls, lab => if l = lab then some 0 else (classIndexAux ls lab).map (· + 1)

/-- a.py lines 172-175: `class_index = custom_labels.index(ann["label"])` with
the `ValueError` handler defaulting to 0. -/
def classIndex (custom_labels : List String) (lab : String) : ℕ :=
  (classIndexAux custom_labels lab).getD 0

/-- Left-pad the decimal digits of `n` with zeros to width 6. -/
def pad6 (n : ℕ) : String :=
  let s := toString n
  String.mk (List.replicate (6 - s.length) '0') ++ s

/-- Fixed-point rendering of a non-negative rational with exactly six
fractional digits, rounding to the nearest multiple of 10⁻⁶: the model of
Python `f"{v:.6f}"` for `v ≥ 0` (all values arising in the claims are exact
multiples of 10⁻⁶, where every round-to-nearest convention agrees). -/
def format6abs (q : ℚ) : String :=
  let r := q * 1000000 + 1 / 2
  let n : ℕ := (r.num.fdiv (r.den : ℤ)).toNat
  toString (n / 1000000) ++ "." ++ pad6 (n % 1000000)

/-- Python `f"{v:.6f}"`, signs included. -/
def format6 (q : ℚ) : String :=
  if q < 0 then "-" ++ format6abs (-q) else format6abs q

/-- One YOLO output line, a.py lines 161-176: normalized center/size plus the
class index, each coordinate formatted with `:.6f`. -/
def yoloLine (custom_labels : List String) (imgW imgH : ℚ) (ann : Ann) : String :=
  let center_x := (ann.x + ann.width / 2) / imgW
  let center_y := (ann.y + ann.height / 2) / imgH
  let norm_w := ann.width / imgW
  let norm_h := ann.height / imgH
  toString (classIndex custom_labels ann.label) ++ " " ++
    format6 center_x ++ " " ++ format6 center_y ++ " " ++
    format6 norm_w ++ " " ++ format6 norm_h

/-- The YOLO branch of the TXT writer: one line per assigned annotation, in
order (a.py lines 159-176). -/
def yoloExport (custom_labels : List String) (imgW imgH : ℚ) (anns : List Ann) :
    List String :=
  anns.map (yoloLine custom_labels imgW imgH)

/-- Integral rationals print like the Python ints decoded from the canvas
JSON; the non-integral case keeps the num/den rendering. -/
def coordStr (q : ℚ) : String :=
  if q.den = 1 then toString q.num else toString q

/-- One body line of the Pascal VOC branch, a.py lines 181-186: the raw,
non-normalized pixel values. -/
def vocLine (ann : Ann) : String :=
  "Label: " ++ ann.label ++ ", Coordinates: (x: " ++ coordStr ann.x ++
    ", y: " ++ coordStr ann.y ++ ", width: " ++ coordStr ann.width ++
    ", height: " ++ coordStr ann.height ++ ")"

/-- The Pascal VOC branch of the TXT writer, a.py lines 177-186: a header
line followed by one line per annotation. -/
def vocExport (anns : List Ann) : List String :=
  "Pascal VOC annotation summary:" :: anns.map vocLine

/-- The format dispatch of the TXT writer (a.py line 159). -/
def toExportText (r : AnnRecord) (imgW imgH : ℚ) : List String :=
  match r.fmt with
  | .yolo => yoloExport r.custom_labels imgW imgH r.annotations
  | .pascalVOC => vocExport r.annotations

/-- JSON-equivalent values, enough for `annotation_data`. -/
inductive JValue where
  | str : String → JValue
  | num : ℚ → JValue
  | arr : List JValue → JValue
  | obj : List (String × JValue) → JValue

/-- One annotation as serialized inside `annotation_data["annotations"]`
(a.py lines 132-138). -/
def annToJ (a : Ann) : JValue :=
  .obj [("label", .str a.label), ("x", .num a.x), ("y", .num a.y),
        ("width", .num a.width), ("height", .num a.height)]

/-- The `annotation_data` dict written by `json.dump` (a.py lines 142-147). -/
def toStructured (r : AnnRecord) : JValue :=
  .obj [("image_name", .str r.image_name),
        ("annotation_format", .str r.fmt.name),
        ("custom_labels", .arr (r.custom_labels.map .str)),
        ("annotations", .arr (r.annotations.map annToJ))]

/-- Parse the format string back to the enum. -/
def parseFormat (s : String) : Option AnnFormat :=
  if s = "Pascal VOC" then some .pascalVOC
  else if s = "YOLO" then some .yolo
  else none

/-- Parse one serialized annotation object. -/
def parseAnn : JValue → Option Ann
  | .obj [("label", .str l), ("x", .num x), ("y", .num y),
          ("width", .num w), ("height", .num h)] => some ⟨l, x, y, w, h⟩
  | _ => none

/-- Parse a serialized label list. -/
def parseStrList : List JValue → Option (List String)
  | [] => some []
  | .str s :: rest => (parseStrList rest).map (s :: ·)
  | _ => none

/-- Parse a serialized annotation list. -/
def parseAnnList : List JValue → Option (List Ann)
  | [] => some []
  | j :: rest =>
    match parseAnn j, parseAnnList rest with
    | some a, some as => some (a :: as)
    | _, _ => none

/-- Re-parse the structured representation into an `AnnRecord`. -/
def parseRecord : JValue → Option AnnRecord
  | .obj [("image_name", .str n), ("annotation_format", .str fs),
          ("custom_labels", .arr ls), ("annotations", .arr as)] =>
    match parseFormat fs, parseStrList ls, parseAnnList as with
    | some f, some cls, some anns => some ⟨n, f, cls, anns⟩
    | _, _, _ => none
  | _ => none

/-- The reportable errors of the spec's taxonomy that the embedding needs. -/
inductive ExportError where
  | invalidImageDimensions : ExportError
deriving DecidableEq, Repr

/-- Modelled from the spec: `assembleRecord(imageRef, format, labelSet,
annotations)` is not present in the source, which divides by the image
dimensions unguarded (a.py lines 167-170); the spec mandates that
non-positive dimensions become the reportable error `InvalidImageDimensions`
and that the record is assembled otherwise. -/
def assembleRecord (imageRef : ImageRef) (fmt : AnnFormat)
    (labelSet : List String) (anns : List Ann) : Except ExportError AnnRecord :=
  if imageRef.width ≤ 0 ∨ imageRef.height ≤ 0 then
    .error .invalidImageDimensions
  else
    .ok ⟨imageRef.name, fmt, labelSet, anns⟩

/-- Modelled from the spec: assembling then encoding; on the error path no
output lines are produced. -/
def exportWithGuard (imageRef : ImageRef) (fmt : AnnFormat)
    (labelSet : List String) (anns : List Ann) : Except ExportError (List String) :=
  (assembleRecord imageRef fmt labelSet anns).map
    (fun r => toExportText r (imageRef.width : ℚ) (imageRef.height : ℚ))

/-- A drawn canvas object as decoded from `canvas_result.json_data`
(a.py lines 107-110): every field reaches the code through `.get`, hence the
`Option` fields. -/
structure CanvasObject where
  type : Option String
  left : Option ℚ
  top : Option ℚ
  width : Option ℚ
  height : Option ℚ
deriving DecidableEq, Repr

/-- a.py line 110:
`bounding_boxes = [obj for obj in objects if obj.get("type") == "rect"]`. -/
def bounding_boxes (objects : List CanvasObject) : List CanvasObject :=
  objects.filter (fun o => o.type == some "rect")

/-- One entry of `assigned_annotations` (a.py lines 132-138): missing box
fields default to 0 via `.get(key, 0)`. -/
def buildAnn (label_choice : String) (box : CanvasObject) : Ann :=
  ⟨label_choice, box.left.getD 0, box.top.getD 0,
   box.width.getD 0, box.height.getD 0⟩

/-- The loop of a.py lines 116-138: one annotation per bounding box, the
label chosen per index by the user (the selectbox keyed `label_{i}`). -/
def assignedAnnotations (label_choice : ℕ → String) (boxes : List CanvasObject) :
    List Ann :=
  boxes.enum.map (fun p => buildAnn (label_choice p.1) p.2)

/-- Sequential storage writes: each `(path, content)` pair is attempted in
order; a failing path aborts the run, recording no write for it and
attempting none of the later ones.  Returns the performed writes and the
failing path, if any.  Models the straight-line Save handler of a.py lines
148-158, where an exception aborts the remaining `open(...)`/`write` calls. -/
def writeSeq (fails : String → Bool) :
    List (String × String) → List (String × String) × Option String
  | [] => ([], none)
  | (p, c) :: rest =>
    if fails p then ([], some p)
    else
      let r := writeSeq fails rest
      ((p, c) :: r.1, r.2)

/-- The three writes of the Save Annotation handler, in source order
(a.py lines 148-158): the JSON record, the image copy, then the TXT export. -/
def saveAnnFiles (fails : String → Bool) (base image_name : String)
    (jsonC imgC txtC : String) : List (String × String) × Option String :=
  writeSeq fails
    [("annotations/" ++ base ++ ".json", jsonC),
     ("annotated_images/" ++ image_name, imgC),
     ("annotations/" ++ base ++ ".txt", txtC)]

/-- a.py lines 63-65: the content written to `labels.txt`, one label per
line, newline-terminated. -/
def labelsFileContent (custom_labels : List String) : String :=
  String.join (custom_labels.map (fun l => l ++ "\n"))

/-- The Save Labels handler (a.py lines 61-66) as a file-system update: it
overwrites `annotations/labels.txt` in full and touches nothing else. -/
def saveLabels (fs : String → Option String) (custom_labels : List String) :
    String → Option String :=
  fun p =>
    if p = "annotations/labels.txt" then some (labelsFileContent custom_labels)
    else fs p

/-! ### Helper lemmas -/

lemma classIndexAux_eq_none {l : List String} {lab : String} (h : lab ∉ l) :
    classIndexAux l lab = none := by
  induction l with
  | nil => rfl
  | cons x xs ih =>
    have hx : ¬x = lab := fun he => h (he ▸ List.mem_cons_self x xs)
    rw [classIndexAux, if_neg hx, ih (fun hm => h (List.mem_cons_of_mem x hm))]
    rfl

lemma classIndexAux_mem {l : List String} {lab : String} (h : lab ∈ l) :
    ∃ k, classIndexAux l lab = some k := by
  induction l with
  | nil => simp at h
  | cons x xs ih =>
    by_cases hx : x = lab
    · exact ⟨0, by simp [classIndexAux, hx]⟩
    · have hm : lab ∈ xs := by
        rcases List.mem_cons.mp h with he | hm
        · exact absurd he.symm hx
        · exact hm
      obtain ⟨k, hk⟩ := ih hm
      exact ⟨k + 1, by simp [classIndexAux, hx, hk]⟩

lemma classIndexAux_first {l : List String} {lab : String} {k : ℕ}
    (h : classIndexAux l lab = some k) :
    l[k]? = some lab ∧ ∀ j < k, l[j]? ≠ some lab := by
  induction l generalizing k with
  | nil => simp [classIndexAux] at h
  | cons x xs ih =>
    by_cases hx : x = lab
    · rw [classIndexAux, if_pos hx] at h
      obtain rfl : (0 : ℕ) = k := by simpa using h
      exact ⟨by simpa using hx, fun j hj => absurd hj (Nat.not_lt_zero j)⟩
    · rw [classIndexAux, if_neg hx] at h
      cases haux : classIndexAux xs lab with
      | none => rw [haux] at h; simp at h
      | some k' =>
        rw [haux] at h
        obtain rfl : k' + 1 = k := by simpa using h
        obtain ⟨h1, h2⟩ := ih haux
        refine ⟨by simpa using h1, fun j hj => ?_⟩
        cases j with
        | zero => simpa using hx
        | succ j' =>
          have : xs[j']? ≠ some lab := h2 j' (by omega)
          simpa using this

lemma parseFormat_name (f : AnnFormat) : parseFormat f.name = some f := by
  cases f <;> with_unfolding_all rfl

lemma parseAnn_annToJ (a : Ann) : parseAnn (annToJ a) = some a := rfl

lemma parseStrList_map (ls : List String) :
    parseStrList (ls.map JValue.str) = some ls := by
  induction ls with
  | nil => rfl
  | cons x xs ih => simp [parseStrList, ih]

lemma parseAnnList_map (as : List Ann) :
    parseAnnList (as.map annToJ) = some as := by
  induction as with
  | nil => rfl
  | cons a as ih => simp [parseAnnList, parseAnn_annToJ, ih]

/-! ### Claim theorems -/

/-- C1: For a record with positive image width `W` and height `H`, the YOLO
export emits exactly one line per annotation, in the original order, and the
line for annotation `ann` is the class index followed by
`(x + width/2)/W`, `(y + height/2)/H`, `width/W` and `height/H`, each
rendered with exactly six decimal digits. -/
theorem yolo_export_line_format (custom_labels : List String) (W H : ℚ)
    (hW : 0 < W) (hH : 0 < H) (anns : List Ann) :
    (yoloExport custom_labels W H anns).length = anns.length ∧
    ∀ (i : ℕ) (ann : Ann), anns[i]? = some ann →
      (yoloExport custom_labels W H anns)[i]? =
        some (toString (classIndex custom_labels ann.label) ++ " " ++
          format6 ((ann.x + ann.width / 2) / W) ++ " " ++
          format6 ((ann.y + ann.height / 2) / H) ++ " " ++
          format6 (ann.width / W) ++ " " ++ format6 (ann.height / H)) := by
  refine ⟨by simp [yoloExport], fun i ann h => ?_⟩
  simp [yoloExport, List.getElem?_map, h, yoloLine]

/-- Witness for C1: the box (10, 20, 100, 50) in a 200×100 image. -/
theorem yolo_export_line_format_witness :
    (yoloExport ["obj"] (200 : ℚ) 100 [⟨"obj", 10, 20, 100, 50⟩])[0]? =
      some "0 0.300000 0.450000 0.500000 0.500000" := by
  have h := (yolo_export_line_format ["obj"] 200 100 (by norm_num) (by norm_num)
      [⟨"obj", 10, 20, 100, 50⟩]).2 0 ⟨"obj", 10, 20, 100, 50⟩ rfl
  exact h.trans (by with_unfolding_all rfl)

/-- C2: With non-positive image width or height, `assembleRecord` (and hence
the guarded export) fails with `InvalidImageDimensions` and no output lines
are produced. -/
theorem assembleRecord_nonpositive_dims (imageRef : ImageRef) (fmt : AnnFormat)
    (labelSet : List String) (anns : List Ann)
    (h : imageRef.width ≤ 0 ∨ imageRef.height ≤ 0) :
    assembleRecord imageRef fmt labelSet anns =
      .error .invalidImageDimensions ∧
    exportWithGuard imageRef fmt labelSet anns =
      .error .invalidImageDimensions := by
  have h1 : assembleRecord imageRef fmt labelSet anns =
      .error .invalidImageDimensions := by
    simp [assembleRecord, h]
  exact ⟨h1, by simp [exportWithGuard, h1, Except.map]⟩

/-- Witness for C2: a 0×100 image. -/
theorem assembleRecord_nonpositive_dims_witness :
    assembleRecord ⟨"img.png", 0, 100⟩ AnnFormat.yolo ["cat"] [] =
      Except.error ExportError.invalidImageDimensions := by
  exact (assembleRecord_nonpositive_dims ⟨"img.png", 0, 100⟩ AnnFormat.yolo
    ["cat"] [] (Or.inl (by norm_num))).1

/-- C3: `classIndex` returns the 0-based position of the first occurrence of
the label in the label list, and 0 with no error when the label is absent;
with labels `["cat", "dog"]`, `"dog"` maps to 1 and `"fish"` to 0. -/
theorem classIndex_first_occurrence (custom_labels : List String) (lab : String) :
    (lab ∈ custom_labels →
      custom_labels[classIndex custom_labels lab]? = some lab ∧
      ∀ j < classIndex custom_labels lab, custom_labels[j]? ≠ some lab) ∧
    (lab ∉ custom_labels → classIndex custom_labels lab = 0) ∧
    classIndex ["cat", "dog"] "dog" = 1 ∧
    classIndex ["cat", "dog"] "fish" = 0 := by
  refine ⟨fun h => ?_, fun h => ?_, by with_unfolding_all rfl,
    by with_unfolding_all rfl⟩
  · obtain ⟨k, hk⟩ := classIndexAux_mem h
    have hs := classIndexAux_first hk
    simpa [classIndex, hk] using hs
  · simp [classIndex, classIndexAux_eq_none h]

/-- Witness for C3: the first-occurrence part at `["cat", "dog"]` / `"dog"`. -/
theorem classIndex_first_occurrence_witness :
    ["cat", "dog"][classIndex ["cat", "dog"] "dog"]? = some "dog" := by
  exact ((classIndex_first_occurrence ["cat", "dog"] "dog").1 (by decide)).1

/-- C4: The Pascal VOC export is exactly the header line followed by one
line per annotation, in order, carrying the raw pixel values. -/
theorem voc_export_line_format (anns : List Ann) :
    (vocExport anns)[0]? = some "Pascal VOC annotation summary:" ∧
    (vocExport anns).length = anns.length + 1 ∧
    ∀ (i : ℕ) (ann : Ann), anns[i]? = some ann →
      (vocExport anns)[i + 1]? =
        some ("Label: " ++ ann.label ++ ", Coordinates: (x: " ++
          coordStr ann.x ++ ", y: " ++ coordStr ann.y ++ ", width: " ++
          coordStr ann.width ++ ", height: " ++ coordStr ann.height ++ ")") := by
  refine ⟨by simp [vocExport], by simp [vocExport], fun i ann h => ?_⟩
  simp [vocExport, List.getElem?_map, h, vocLine]

/-- Witness for C4: the annotation {cat, 5, 5, 20, 30}. -/
theorem voc_export_line_format_witness :
    (vocExport [⟨"cat", 5, 5, 20, 30⟩])[1]? =
      some "Label: cat, Coordinates: (x: 5, y: 5, width: 20, height: 30)" := by
  have h := (voc_export_line_format [⟨"cat", 5, 5, 20, 30⟩]).2.2 0
    ⟨"cat", 5, 5, 20, 30⟩ rfl
  exact h.trans (by with_unfolding_all rfl)

/-- C5: Serializing an `AnnRecord` with `toStructured` and re-parsing the
result yields the original record in all fields (round-trip law). -/
theorem toStructured_roundtrip (r : AnnRecord) :
    parseRecord (toStructured r) = some r := by
  obtain ⟨n, f, cls, anns⟩ := r
  simp [toStructured, parseRecord, parseFormat_name, parseStrList_map,
    parseAnnList_map]

/-- C6: Every label chosen from the selectbox options either belongs to the
label list or, when the list is empty, is exactly the fallback "object"; with
an empty list the choice is "object" and its class index is 0. -/
theorem label_choice_invariant (custom_labels : List String) (choice : String)
    (h : choice ∈ labelOptions custom_labels) :
    (choice ∈ custom_labels ∨ (custom_labels = [] ∧ choice = "object")) ∧
    (custom_labels = [] →
      choice = "object" ∧ classIndex custom_labels choice = 0) := by
  cases custom_labels with
  | nil =>
    have hc : choice = "object" := by
      simpa [labelOptions, default_label] using h
    subst hc
    exact ⟨Or.inr ⟨rfl, rfl⟩, fun _ => ⟨rfl, rfl⟩⟩
  | cons x xs =>
    refine ⟨Or.inl ?_, fun hh => by cases hh⟩
    simpa [labelOptions] using h

/-- Witness for C6: the empty label list. -/
theorem label_choice_invariant_witness :
    classIndex ([] : List String) "object" = 0 := by
  exact ((label_choice_invariant [] "object" (by decide)).2 rfl).2

/-- C7: `setLabels` produces the whitespace-trimmed, non-empty lines of its
input in their original order (trim first, then drop the empties), and every
resulting label is non-empty; it is total, so an empty result raises no
error. -/
theorem setLabels_spec (ls : List String) :
    setLabels ls = (ls.map (fun l => l.trim)).filter (fun s => s != "") ∧
    ∀ s ∈ setLabels ls, s ≠ "" := by
  constructor
  · rw [List.filter_map]
    rfl
  · intro s hs
    simp only [setLabels, List.mem_map, List.mem_filter] at hs
    obtain ⟨l, ⟨_, hne⟩, rfl⟩ := hs
    simpa using hne

/-- Witness for C7: trimming and dropping on a concrete line list. -/
theorem setLabels_spec_witness :
    setLabels [" cat ", "  ", "dog", ""] =
      ([" cat ", "  ", "dog", ""].map (fun l => l.trim)).filter
        (fun s => s != "") ∧
    ("cat" : String) ≠ "" := by
  exact ⟨(setLabels_spec [" cat ", "  ", "dog", ""]).1,
    (setLabels_spec [" cat "]).2 "cat" (by with_unfolding_all decide)⟩

/-- C8: When the structured JSON write fails, the Save Annotation handler
surfaces the failing path, performs no write at all — in particular the
sibling TXT export for the image is not written. -/
theorem json_failure_no_sibling_writes (fails : String → Bool)
    (base image_name jsonC imgC txtC : String)
    (h : fails ("annotations/" ++ base ++ ".json") = true) :
    saveAnnFiles fails base image_name jsonC imgC txtC =
      ([], some ("annotations/" ++ base ++ ".json")) ∧
    ∀ c, ("annotations/" ++ base ++ ".txt", c) ∉
      (saveAnnFiles fails base image_name jsonC imgC txtC).1 := by
  have h1 : saveAnnFiles fails base image_name jsonC imgC txtC =
      ([], some ("annotations/" ++ base ++ ".json")) := by
    simp [saveAnnFiles, writeSeq, h]
  exact ⟨h1, fun c => by simp [h1]⟩

/-- Witness for C8: a storage that rejects exactly the JSON path. -/
theorem json_failure_no_sibling_writes_witness :
    saveAnnFiles (fun p => p == "annotations/img.json") "img" "img.png"
      "J" "I" "T" = ([], some "annotations/img.json") := by
  have h := (json_failure_no_sibling_writes
    (fun p => p == "annotations/img.json") "img" "img.png" "J" "I" "T"
    (by with_unfolding_all rfl)).1
  exact h.trans (by with_unfolding_all rfl)

/-- C9: Only canvas objects whose type is "rect" become bounding boxes, every
"rect" object does, and the number of assigned annotations equals the number
of "rect" objects. -/
theorem rect_filter_spec (label_choice : ℕ → String)
    (objects : List CanvasObject) :
    (∀ o ∈ bounding_boxes objects, o.type = some "rect") ∧
    (∀ o ∈ objects, o.type = some "rect" → o ∈ bounding_boxes objects) ∧
    (assignedAnnotations label_choice (bounding_boxes objects)).length =
      objects.countP (fun o => o.type == some "rect") := by
  refine ⟨fun o ho => ?_, fun o ho h => ?_, ?_⟩
  · have hb := (List.mem_filter.mp ho).2
    simpa using hb
  · exact List.mem_filter.mpr ⟨ho, by simp [h]⟩
  · simp [assignedAnnotations, bounding_boxes, List.countP_eq_length_filter]

/-- Witness for C9: one rect and one path object. -/
theorem rect_filter_spec_witness :
    (⟨some "rect", some 1, some 2, some 3, some 4⟩ : CanvasObject) ∈
      bounding_boxes [⟨some "rect", some 1, some 2, some 3, some 4⟩,
        ⟨some "path", none, none, none, none⟩] ∧
    (assignedAnnotations (fun _ => "object")
      (bounding_boxes [⟨some "rect", some 1, some 2, some 3, some 4⟩,
        ⟨some "path", none, none, none, none⟩])).length = 1 := by
  constructor
  · exact (rect_filter_spec (fun _ => "object") _).2.1 _
      (by with_unfolding_all decide) (by with_unfolding_all rfl)
  · exact ((rect_filter_spec (fun _ => "object")
      [⟨some "rect", some 1, some 2, some 3, some 4⟩,
        ⟨some "path", none, none, none, none⟩]).2.2).trans
      (by with_unfolding_all rfl)

/-- C10: Saving the label set writes only `annotations/labels.txt` — one
label per line, newline-terminated, overwritten in full — and leaves every
other path of the file system unchanged. -/
theorem save_labels_frame (fs : String → Option String)
    (custom_labels : List String) :
    saveLabels fs custom_labels "annotations/labels.txt" =
      some (String.join (custom_labels.map (fun l => l ++ "\n"))) ∧
    ∀ p, p ≠ "annotations/labels.txt" → saveLabels fs custom_labels p = fs p := by
  exact ⟨by simp [saveLabels, labelsFileContent],
    fun p hp => by simp [saveLabels, hp]⟩

/-- Witness for C10: a concrete label list against a concrete prior file
system. -/
theorem save_labels_frame_witness :
    saveLabels (fun _ => some "old") ["cat", "dog"] "annotations/img.json" =
      some "old" ∧
    saveLabels (fun _ => some "old") ["cat", "dog"] "annotations/labels.txt" =
      some "cat\ndog\n" := by
  constructor
  · exact (save_labels_frame (fun _ => some "old") ["cat", "dog"]).2
      "annotations/img.json" (by decide)
  · exact ((save_labels_frame (fun _ => some "old") ["cat", "dog"]).1).trans
      (by with_unfolding_all rfl)
